import Mathlib

/-!
Shallow embedding of `src/task/bot.py`, an interactive contact manager:
an `AddressBook` maps names to `Record`s (validated name, list of validated
phone numbers, optional birthday), and `get_upcoming_birthdays` computes
which contacts should be greeted in the next seven days, shifting weekend
occurrences to the following Monday.

Python's mutable objects are embedded by explicit state passing: a method
that mutates a record becomes a function `Record → ... → Record × Option BotError`,
where the second component records the exception that the `error_handler`
decorator caught and printed (`none` when no exception was raised).
-/

namespace Bot

/-!
### Dates

Python's `datetime.date`: proleptic Gregorian calendar, years 1..9999.
`Date.toOrdinal` matches `date.toordinal()` (the ordinal of 1.1.1 is 1) and
`Date.weekday` matches `date.weekday()` (Monday = 0, ..., Sunday = 6).
-/

structure Date where
  year : Nat
  month : Nat
  day : Nat
deriving DecidableEq

def isLeapYear (y : Nat) : Bool :=
  y % 4 == 0 && (y % 100 != 0 || y % 400 == 0)

def daysInMonth (y m : Nat) : Nat :=
  if m == 2 then (if isLeapYear y then 29 else 28)
  else if m == 4 || m == 6 || m == 9 || m == 11 then 30
  else 31

/-- The validity check `datetime(year, month, day)` performs; an invalid
triple raises `ValueError`. -/
def Date.isValid (d : Date) : Bool :=
  decide (1 ≤ d.year ∧ 1 ≤ d.month ∧ d.month ≤ 12 ∧ 1 ≤ d.day ∧
    d.day ≤ daysInMonth d.year d.month)

def daysBeforeYear (y : Nat) : Nat :=
  365 * (y - 1) + (y - 1) / 4 - (y - 1) / 100 + (y - 1) / 400

def daysBeforeMonth (y : Nat) : Nat → Nat
  | 0 => 0
  | 1 => 0
  | m + 2 => daysBeforeMonth y (m + 1) + daysInMonth y (m + 1)

/-- `date.toordinal()`: the number of days from 31.12.0000 (exclusive). -/
def Date.toOrdinal (d : Date) : Nat :=
  daysBeforeYear d.year + daysBeforeMonth d.year d.month + d.day

/-- `date.weekday()`: Monday = 0, ..., Sunday = 6 (1.1.1 is a Monday). -/
def Date.weekday (d : Date) : Nat :=
  (d.toOrdinal + 6) % 7

/-- One calendar day forward (the successor function underlying
`date + timedelta(days=n)` for a valid date). -/
def Date.nextDay (d : Date) : Date :=
  if d.day < daysInMonth d.year d.month then ⟨d.year, d.month, d.day + 1⟩
  else if d.month < 12 then ⟨d.year, d.month + 1, 1⟩
  else ⟨d.year + 1, 1, 1⟩

/-- `date + timedelta(days=n)`. -/
def Date.addDays (d : Date) : Nat → Date
  | 0 => d
  | n + 1 => d.nextDay.addDays n

/-- `(occ - current).days`, the signed day difference of two dates. -/
def deltaDays (current occ : Date) : Int :=
  (occ.toOrdinal : Int) - (current.toOrdinal : Int)

def pad2 (n : Nat) : String :=
  if n < 10 then "0" ++ toString n else toString n

def pad4 (n : Nat) : String :=
  if n < 10 then "000" ++ toString n
  else if n < 100 then "00" ++ toString n
  else if n < 1000 then "0" ++ toString n
  else toString n

/-- `datetime.strftime(d, "%d.%m.%Y")` (the module-level `DATE_PATTERN`). -/
def Date.format (d : Date) : String :=
  pad2 d.day ++ "." ++ pad2 d.month ++ "." ++ pad4 d.year

/-!
### Errors

The exceptions of `bot.py`, named after the spec's taxonomy:
`requiredField` is `RequiredFieldError`; `fieldFormat` is `FieldFormatError`;
`notFoundPhone` is the `ValueError` raised by `Record.__get_phone_index`
(printed by `error_handler` as "Phone number not found.");
`notFoundContact` is the `KeyError` of a missing dictionary key
(printed as "Contact not found."); `argumentCount` is the `IndexError`
raised by `validate_arguments`; `valueError` is the `ValueError` raised by
`validate_phone` / `validate_date`.
-/

inductive BotError where
  | requiredField
  | fieldFormat
  | notFoundPhone
  | notFoundContact
  | argumentCount
  | valueError
deriving DecidableEq

/-- The `error_handler` decorator: every listed exception (and any other
`Exception`) is caught, a message is printed, and the wrapped function
returns `None`. -/
def errorHandler {α : Type} : Except BotError α → Option α
  | Except.ok a => some a
  | Except.error _ => none

/-!
### Fields
-/

/-- Python's per-character `str.isdigit()`: true exactly for the characters
whose Unicode Numeric_Type is Decimal or Digit — the ASCII digits 0-9
together with the non-ASCII decimal-digit ranges of the Unicode database
(Arabic-Indic, Devanagari, Thai, fullwidth, ...) and the digit-property
characters such as superscripts and subscripts.  The table below
transcribes those code-point ranges; Python reads the same property from
its built-in Unicode table.  Note this is strictly wider than the decimal
digits 0-9: e.g. the superscript two U+00B2 passes. -/
def pyIsDigit (c : Char) : Bool :=
  let n := c.toNat
  decide ((0x30 ≤ n ∧ n ≤ 0x39) ∨
    n = 0xB2 ∨ n = 0xB3 ∨ n = 0xB9 ∨
    (0x660 ≤ n ∧ n ≤ 0x669) ∨ (0x6F0 ≤ n ∧ n ≤ 0x6F9) ∨
    (0x966 ≤ n ∧ n ≤ 0x96F) ∨ (0x9E6 ≤ n ∧ n ≤ 0x9EF) ∨
    (0xA66 ≤ n ∧ n ≤ 0xA6F) ∨ (0xAE6 ≤ n ∧ n ≤ 0xAEF) ∨
    (0xB66 ≤ n ∧ n ≤ 0xB6F) ∨ (0xBE6 ≤ n ∧ n ≤ 0xBEF) ∨
    (0xC66 ≤ n ∧ n ≤ 0xC6F) ∨ (0xCE6 ≤ n ∧ n ≤ 0xCEF) ∨
    (0xD66 ≤ n ∧ n ≤ 0xD6F) ∨ (0xE50 ≤ n ∧ n ≤ 0xE59) ∨
    (0xED0 ≤ n ∧ n ≤ 0xED9) ∨ (0xF20 ≤ n ∧ n ≤ 0xF29) ∨
    (0x1040 ≤ n ∧ n ≤ 0x1049) ∨ (0x17E0 ≤ n ∧ n ≤ 0x17E9) ∨
    (0x1810 ≤ n ∧ n ≤ 0x1819) ∨
    n = 0x2070 ∨ (0x2074 ≤ n ∧ n ≤ 0x2079) ∨
    (0x2080 ≤ n ∧ n ≤ 0x2089) ∨
    (0xFF10 ≤ n ∧ n ≤ 0xFF19))

/-- The check of `Phone.__init__` (also of `validate_phone`):
`len(value) != 10 or not all(c.isdigit() for c in value)` raises.
`str.isdigit` is Python's Unicode digit test (`pyIsDigit`), not the
ASCII-only decimal test. -/
def isPhoneValid (value : String) : Bool :=
  value.length == 10 && value.data.all pyIsDigit

/-- A `Phone` field object; only its `value` is ever observed.  `Phone`
inherits no `__eq__`, a fact the embedding of `Record.add_phone` records. -/
structure Phone where
  value : String
deriving DecidableEq

/-- `Phone.__init__`: raises `FieldFormatError` unless the value is exactly
10 characters, each passing Python's `str.isdigit` test. -/
def Phone.init (value : String) : Except BotError Phone :=
  if isPhoneValid value then Except.ok ⟨value⟩
  else Except.error BotError.fieldFormat

/-!
### Records

A `Record` holds a `Name` (validated non-empty on creation, stored by its
string value), a list of `Phone`s, and an optional birthday.  The `Birthday`
field stores the raw string that `strptime(value, "%d.%m.%Y")` validated;
since `get_upcoming_birthdays` re-parses that same string with the same
pattern, the embedding stores the parse result (a `Date`) directly.
-/

structure Record where
  name : String
  phones : List Phone
  birthday : Option Date
deriving DecidableEq

/-- `Record.__init__(name)`: `Name(name)` raises `RequiredFieldError` when
the stripped string is empty; otherwise the record starts with no phones and
no birthday.  Python's `str.strip()` strips all Unicode whitespace while
`String.trim` strips only the ASCII whitespace characters; no theorem in
this development evaluates that branch on a string where they differ. -/
def Record.init (name : String) : Except BotError Record :=
  if name.trim.length == 0 then Except.error BotError.requiredField
  else Except.ok ⟨name, [], none⟩

/-- `Record.__get_phone_index`: index of the first stored phone whose
`value` equals the argument; raises `ValueError` (here: `none`) when there
is none. -/
def getPhoneIndex : List Phone → String → Option Nat
  | [], _ => none
  | p :: rest, number =>
    if p.value = number then some 0
    else (getPhoneIndex rest number).map (· + 1)

/-- `Record.add_phone` (wrapped in `error_handler`).  `Phone(phone_number)`
raises `FieldFormatError` on an invalid number, which the decorator catches,
leaving the record unchanged.  On a valid number the guard
`phone and phone not in self.phones` always passes: `Phone` defines no
`__eq__`, so the `in` test falls back to object identity and the freshly
constructed `Phone` object is never identical to a stored one; hence a new
`Phone(phone_number)` is appended unconditionally, duplicates included. -/
def Record.add_phone (r : Record) (phone_number : String) :
    Record × Option BotError :=
  if isPhoneValid phone_number then
    ({ r with phones := r.phones ++ [⟨phone_number⟩] }, none)
  else (r, some BotError.fieldFormat)

/-- `Record.remove_phone` (wrapped in `error_handler`).
`__get_phone_index` raises `ValueError` when the number is absent; when it
is present the method runs `self.phones.pop()`, which removes (and returns)
the LAST element of the list — the computed index is only compared with 0,
never passed to `pop`.  The popped value is returned to the caller and
discarded here. -/
def Record.remove_phone (r : Record) (phone_number : String) :
    Record × Option BotError :=
  match getPhoneIndex r.phones phone_number with
  | none => (r, some BotError.notFoundPhone)
  | some _ => ({ r with phones := r.phones.dropLast }, none)

/-- `Record.edit_phone` (wrapped in `error_handler`).  `__get_phone_index`
raises `ValueError` when the old number is absent; then `Phone(new)` may
raise `FieldFormatError`; otherwise `self.phones[index]` is replaced by the
new `Phone`. -/
def Record.edit_phone (r : Record) (old_phone_number new_phone_number : String) :
    Record × Option BotError :=
  match getPhoneIndex r.phones old_phone_number with
  | none => (r, some BotError.notFoundPhone)
  | some index =>
    if isPhoneValid new_phone_number then
      ({ r with phones := r.phones.set index ⟨new_phone_number⟩ }, none)
    else (r, some BotError.fieldFormat)

/-- `Record.add_birthday` (wrapped in `error_handler`).
`Birthday(day)` parses the string with `strptime(day, "%d.%m.%Y")` and
raises `FieldFormatError` when it does not parse; the embedding passes the
string by its parse result: `some d` for a string that parses to the valid
calendar date `d`, `none` for any other string.  On success the new birthday
overwrites any existing one. -/
def Record.add_birthday (r : Record) (day : Option Date) :
    Record × Option BotError :=
  match day with
  | some d => ({ r with birthday := some d }, none)
  | none => (r, some BotError.fieldFormat)

/-- The invariant the code actually maintains: every stored phone value
passes the code's own validation predicate (10 characters, each a Python
digit character). -/
def phonesValid (r : Record) : Bool :=
  r.phones.all fun p => isPhoneValid p.value

/-- The invariant as the specification words it ("each exactly 10 ASCII
digits"): every stored phone value is a string of exactly 10 decimal digits
0-9.  Stated from the spec's words, for comparison with `phonesValid`. -/
def phonesDecimal (r : Record) : Bool :=
  r.phones.all fun p => p.value.length == 10 && p.value.data.all Char.isDigit

/-!
### The address book

`AddressBook(UserDict)` holds an insertion-ordered dictionary from name to
`Record`, embedded as an association list.  Assigning to an existing key
keeps its position (`setName`); `pop` removes the entry or raises `KeyError`
(`popName` returning `none`).
-/

structure AddressBook where
  data : List (String × Record)
deriving DecidableEq

def lookupName : List (String × Record) → String → Option Record
  | [], _ => none
  | (k, v) :: rest, name => if k = name then some v else lookupName rest name

def setName : List (String × Record) → String → Record → List (String × Record)
  | [], name, record => [(name, record)]
  | (k, v) :: rest, name, record =>
    if k = name then (k, record) :: rest
    else (k, v) :: setName rest name record

def popName : List (String × Record) → String → Option (List (String × Record))
  | [], _ => none
  | (k, v) :: rest, name =>
    if k = name then some rest
    else (popName rest name).map ((k, v) :: ·)

/-- `AddressBook.add_record`: `self.data[record.name.value] = record`. -/
def AddressBook.add_record (book : AddressBook) (record : Record) : AddressBook :=
  ⟨setName book.data record.name record⟩

/-- The body of `AddressBook.find` before the decorator:
`self.data[name]`, raising `KeyError` when the name is absent. -/
def AddressBook.findRaw (book : AddressBook) (name : String) :
    Except BotError Record :=
  match lookupName book.data name with
  | some record => Except.ok record
  | none => Except.error BotError.notFoundContact

/-- `AddressBook.find` (wrapped in `error_handler`): the `KeyError` is
caught inside the method and `None` is returned. -/
def AddressBook.find (book : AddressBook) (name : String) : Option Record :=
  errorHandler (book.findRaw name)

/-- The body of `AddressBook.delete` before the decorator:
`self.data.pop(name)`, raising `KeyError` when the name is absent. -/
def AddressBook.deleteRaw (book : AddressBook) (name : String) :
    Except BotError AddressBook :=
  match popName book.data name with
  | some rest => Except.ok ⟨rest⟩
  | none => Except.error BotError.notFoundContact

/-- `AddressBook.delete` (wrapped in `error_handler`): the `KeyError` is
caught inside the method, leaving the dictionary unchanged. -/
def AddressBook.delete (book : AddressBook) (name : String) : AddressBook :=
  match book.deleteRaw name with
  | Except.ok book' => book'
  | Except.error _ => book

/-!
### The upcoming-birthday computation
-/

/-- The ephemeral greeting entry
`{"name": ..., "congratulation_date": strftime(..., "%d.%m.%Y")}`. -/
structure Greeting where
  name : String
  congratulation_date : String
deriving DecidableEq

/-- `datetime(current_year, user_born_date.month, user_born_date.day)`:
this year's occurrence of the stored birthday. -/
def occurrenceOf (current bd : Date) : Date :=
  ⟨current.year, bd.month, bd.day⟩

/-- `delta_days >= 0 and delta_days <= 7`. -/
abbrev isUpcoming (current occ : Date) : Prop :=
  0 ≤ deltaDays current occ ∧ deltaDays current occ ≤ 7

/-- `extra_days = 0 if birthday.weekday() < 5 else (7 - birthday.weekday())`
followed by `birthday + timedelta(extra_days)`. -/
def congratulationDate (birthday : Date) : Date :=
  birthday.addDays (if birthday.weekday < 5 then 0 else 7 - birthday.weekday)

/-- The greeting the loop body of `get_upcoming_birthdays` emits for one
dictionary entry (nothing for a record without a birthday or out of the
7-day window), assuming this year's occurrence is a constructible date. -/
def greetingOf (current : Date) (entry : String × Record) : Option Greeting :=
  match entry.2.birthday with
  | none => none
  | some bd =>
    if isUpcoming current (occurrenceOf current bd) then
      some ⟨entry.1, (congratulationDate (occurrenceOf current bd)).format⟩
    else none

/-- The loop of `AddressBook.get_upcoming_birthdays` over
`self.data.values()`.  Records without a birthday are skipped;
`datetime(current_year, month, day)` raises `ValueError` (uncaught — the
method has no decorator) on an invalid occurrence such as 29.02 in a
non-leap year, modelled as `Except.error`. -/
def getUpcomingAux (current : Date) :
    List (String × Record) → Except Unit (List Greeting)
  | [] => Except.ok []
  | entry :: rest =>
    match entry.2.birthday with
    | none => getUpcomingAux current rest
    | some bd =>
      if (occurrenceOf current bd).isValid then
        if isUpcoming current (occurrenceOf current bd) then
          match getUpcomingAux current rest with
          | Except.ok gs =>
            Except.ok
              (⟨entry.1, (congratulationDate (occurrenceOf current bd)).format⟩ :: gs)
          | Except.error e => Except.error e
        else getUpcomingAux current rest
      else Except.error ()

/-- `AddressBook.get_upcoming_birthdays`.  The method reads the clock with
`datetime.today().date()`; the embedding passes that date (`current`) as a
parameter. -/
def AddressBook.get_upcoming_birthdays (book : AddressBook) (current : Date) :
    Except Unit (List Greeting) :=
  getUpcomingAux current book.data

/-!
### Persistence

`save_data` pickles the book into the named file (default `book.pkl`);
`load_data` unpickles it, returning a fresh empty `AddressBook()` when the
file does not exist.  The `pickle` library is external to the repository;
its documented dump/load round-trip is modelled as faithful storage of the
value, so the file system maps a filename to the stored book (or nothing).
-/

def FileSystem : Type := String → Option AddressBook

/-- `save_data(book, filename)`. -/
def save_data (fs : FileSystem) (book : AddressBook) (filename : String) :
    FileSystem :=
  fun f => if f = filename then some book else fs f

/-- `load_data(filename)`: `FileNotFoundError` yields `AddressBook()`. -/
def load_data (fs : FileSystem) (filename : String) : AddressBook :=
  match fs filename with
  | some book => book
  | none => ⟨[]⟩

/-!
### The `add` command handler
-/

/-- `add_contact(args, book)` (wrapped in `input_error`, whose caught
exceptions are returned as `Except.error` here): `validate_arguments` raises
`IndexError` unless exactly two arguments are given; `validate_phone` raises
`ValueError` on a malformed phone; `book.get(name)` reuses the existing
record when there is one and otherwise a fresh `Record(name)` is created
(whose `Name` validation may raise `RequiredFieldError`); the phone is added
to the record, which is then re-assigned to its key. -/
def add_contact (args : List String) (book : AddressBook) :
    Except BotError AddressBook :=
  match args with
  | [name, phone] =>
    if isPhoneValid phone then
      match lookupName book.data name with
      | some record => Except.ok (book.add_record (record.add_phone phone).1)
      | none =>
        match Record.init name with
        | Except.ok record => Except.ok (book.add_record (record.add_phone phone).1)
        | Except.error e => Except.error e
    else Except.error BotError.valueError
  | _ => Except.error BotError.argumentCount

end Bot

namespace Bot

/-!
### Helper lemmas
-/

lemma phonesValid_iff {r : Record} :
    phonesValid r = true ↔ ∀ p ∈ r.phones, isPhoneValid p.value = true := by
  simp [phonesValid, List.all_eq_true]

lemma getPhoneIndex_eq_none {l : List Phone} {n : String} :
    getPhoneIndex l n = none ↔ ∀ p ∈ l, p.value ≠ n := by
  induction l with
  | nil => simp [getPhoneIndex]
  | cons p rest ih =>
    by_cases h : p.value = n
    · simp [getPhoneIndex, h]
    · simp [getPhoneIndex, h, ih]

lemma lookupName_setName_self (l : List (String × Record)) (name : String)
    (record : Record) :
    lookupName (setName l name record) name = some record := by
  induction l with
  | nil => simp [setName, lookupName]
  | cons kv rest ih =>
    obtain ⟨k, v⟩ := kv
    by_cases h : k = name
    · simp [setName, lookupName, h]
    · simp [setName, lookupName, h, ih]

lemma lookupName_setName_ne (l : List (String × Record)) (name other : String)
    (record : Record) (h : other ≠ name) :
    lookupName (setName l name record) other = lookupName l other := by
  induction l with
  | nil => simp [setName, lookupName, Ne.symm h]
  | cons kv rest ih =>
    obtain ⟨k, v⟩ := kv
    by_cases hk : k = name
    · subst hk
      simp [setName, lookupName, Ne.symm h]
    · simp [setName, lookupName, hk, ih]

lemma popName_eq_none {l : List (String × Record)} {name : String}
    (h : lookupName l name = none) : popName l name = none := by
  induction l with
  | nil => simp [popName]
  | cons kv rest ih =>
    obtain ⟨k, v⟩ := kv
    by_cases hk : k = name
    · simp [lookupName, hk] at h
    · simp only [lookupName, hk, if_false] at h
      simp [popName, hk, ih h]

lemma nodup_keys_mem_eq {l : List (String × Record)}
    (h : (l.map Prod.fst).Nodup) {k : String} {v w : Record}
    (hv : (k, v) ∈ l) (hw : (k, w) ∈ l) : v = w := by
  induction l with
  | nil => cases hv
  | cons kv rest ih =>
    obtain ⟨k', v'⟩ := kv
    simp only [List.map_cons, List.nodup_cons] at h
    obtain ⟨hk', hrest⟩ := h
    rcases List.mem_cons.mp hv with hv1 | hv2 <;>
      rcases List.mem_cons.mp hw with hw1 | hw2
    · obtain ⟨h1, h2⟩ := Prod.ext_iff.mp hv1
      obtain ⟨h3, h4⟩ := Prod.ext_iff.mp hw1
      simp only at h2 h4
      rw [h2, h4]
    · exfalso
      apply hk'
      obtain ⟨h1, h2⟩ := Prod.ext_iff.mp hv1
      simp only at h1
      rw [← h1]
      exact List.mem_map_of_mem Prod.fst hw2
    · exfalso
      apply hk'
      obtain ⟨h1, h2⟩ := Prod.ext_iff.mp hw1
      simp only at h1
      rw [← h1]
      exact List.mem_map_of_mem Prod.fst hv2
    · exact ih hrest hv2 hw2

end Bot

namespace Bot

/-!
### Record-operation claims
-/

/-- C3 (counter-evidence, code bug): the specification says that adding a
valid phone number already present in the record is a no-op, but
`Record.add_phone` appends a second copy: the guard
`phone not in self.phones` compares object identity (`Phone` has no
`__eq__`), so it never detects a duplicate.  Evaluated on a record that
already holds 1234567890. -/
theorem add_phone_duplicate_appends :
    (Record.add_phone ⟨"Bob", [⟨"1234567890"⟩], none⟩ "1234567890").1.phones
        = [⟨"1234567890"⟩, ⟨"1234567890"⟩] ∧
    (Record.add_phone ⟨"Bob", [⟨"1234567890"⟩], none⟩ "1234567890").1.phones
        ≠ [⟨"1234567890"⟩] := by
  decide

/-- C4 (counter-evidence, code bug): the specification says
`remove_phone(number)` removes exactly the given number, but the method runs
`self.phones.pop()` — removing the LAST stored phone — while the index it
computed for the given number goes unused.  Evaluated on a record holding
1111111111 then 2222222222: removing 1111111111 leaves 1111111111 and
deletes 2222222222 instead. -/
theorem remove_phone_pops_last :
    (Record.remove_phone ⟨"Bob", [⟨"1111111111"⟩, ⟨"2222222222"⟩], none⟩
        "1111111111").1.phones = [⟨"1111111111"⟩] ∧
    (Record.remove_phone ⟨"Bob", [⟨"1111111111"⟩, ⟨"2222222222"⟩], none⟩
        "1111111111").1.phones ≠ [⟨"2222222222"⟩] := by
  decide

/-- C5: `edit_phone(old, new)` with an old number absent from the phone list
fails with the NotFound error (the `ValueError` of `__get_phone_index`,
printed as "Phone number not found.") and leaves the record — in particular
its phone list — exactly unchanged. -/
theorem edit_phone_not_found
    (r : Record) (oldNumber newNumber : String)
    (h : ∀ p ∈ r.phones, p.value ≠ oldNumber) :
    r.edit_phone oldNumber newNumber = (r, some BotError.notFoundPhone) := by
  unfold Record.edit_phone
  rw [getPhoneIndex_eq_none.mpr h]

/-- Witness for C5 at a concrete record. -/
theorem edit_phone_not_found_witness :
    (⟨"Bob", [⟨"1234567890"⟩], none⟩ : Record).edit_phone "0000000000" "1111111111"
      = (⟨"Bob", [⟨"1234567890"⟩], none⟩, some BotError.notFoundPhone) :=
  edit_phone_not_found _ _ _ (by decide)

/-- C6 (counterexample): the claim says `Phone(s)` succeeds only when every
character is a decimal digit and that any other string fails with
FieldFormat, but Python's `str.isdigit` also accepts other Unicode digit
characters: the 10-character string of superscript twos (U+00B2, a
digit-property character that is not a decimal digit under any reading)
is accepted by `Phone.__init__`. -/
theorem phone_init_accepts_superscript_digits :
    Phone.init "²²²²²²²²²²" = Except.ok ⟨"²²²²²²²²²²"⟩ ∧
    ¬ ("²²²²²²²²²²".length = 10 ∧ ∀ c ∈ "²²²²²²²²²²".data, c.isDigit = true) ∧
    Phone.init "²²²²²²²²²²" ≠ Except.error BotError.fieldFormat := by
  refine ⟨rfl, by decide, ?_⟩
  intro h
  rw [show Phone.init "²²²²²²²²²²" = Except.ok ⟨"²²²²²²²²²²"⟩ from rfl] at h
  cases h

/-- C6 (amended): `Phone(s)` succeeds (returning a field wrapping exactly
`s`) iff `s` has exactly 10 characters, each passing Python's `str.isdigit`
test — the decimal digits 0-9 together with the other Unicode digit
characters; on any other string it fails with the FieldFormat error. -/
theorem phone_init_characterization (s : String) :
    (Phone.init s = Except.ok ⟨s⟩ ↔
      (s.length = 10 ∧ ∀ c ∈ s.data, pyIsDigit c = true)) ∧
    (Phone.init s = Except.error BotError.fieldFormat ↔
      ¬ (s.length = 10 ∧ ∀ c ∈ s.data, pyIsDigit c = true)) := by
  have hiff : isPhoneValid s = true ↔
      (s.length = 10 ∧ ∀ c ∈ s.data, pyIsDigit c = true) := by
    simp [isPhoneValid, List.all_eq_true]
  rw [← hiff]
  by_cases hv : isPhoneValid s = true
  · simp [Phone.init, hv]
  · simp [Phone.init, hv]

/-- Witness for C6 at a concrete valid string. -/
theorem phone_init_characterization_witness :
    (Phone.init "0123456789" = Except.ok ⟨"0123456789"⟩ ↔
      ("0123456789".length = 10 ∧ ∀ c ∈ "0123456789".data, pyIsDigit c = true)) ∧
    (Phone.init "0123456789" = Except.error BotError.fieldFormat ↔
      ¬ ("0123456789".length = 10 ∧ ∀ c ∈ "0123456789".data, pyIsDigit c = true)) :=
  phone_init_characterization "0123456789"

lemma edit_phone_none (r : Record) (oldN newN : String)
    (h : getPhoneIndex r.phones oldN = none) :
    r.edit_phone oldN newN = (r, some BotError.notFoundPhone) := by
  unfold Record.edit_phone
  rw [h]

lemma edit_phone_some (r : Record) (oldN newN : String) (i : Nat)
    (h : getPhoneIndex r.phones oldN = some i) :
    r.edit_phone oldN newN =
      if isPhoneValid newN then
        ({ r with phones := r.phones.set i ⟨newN⟩ }, none)
      else (r, some BotError.fieldFormat) := by
  unfold Record.edit_phone
  rw [h]

lemma remove_phone_none (r : Record) (number : String)
    (h : getPhoneIndex r.phones number = none) :
    r.remove_phone number = (r, some BotError.notFoundPhone) := by
  unfold Record.remove_phone
  rw [h]

lemma remove_phone_some (r : Record) (number : String) (i : Nat)
    (h : getPhoneIndex r.phones number = some i) :
    r.remove_phone number = ({ r with phones := r.phones.dropLast }, none) := by
  unfold Record.remove_phone
  rw [h]

/-- C7 (counterexample): the claim says every record operation preserves
the invariant that each stored phone is a string of exactly 10 decimal
digits, but `add_phone` validates with `str.isdigit`, which also accepts
`"²²²²²²²²²²"` (10 superscript twos): starting from a record satisfying the
decimal invariant, the call stores that phone and the invariant is lost. -/
theorem add_phone_breaks_decimal_invariant :
    phonesDecimal ⟨"Bob", [⟨"1234567890"⟩], none⟩ = true ∧
    (Record.add_phone ⟨"Bob", [⟨"1234567890"⟩], none⟩ "²²²²²²²²²²").1.phones
        = [⟨"1234567890"⟩, ⟨"²²²²²²²²²²"⟩] ∧
    phonesDecimal
      (Record.add_phone ⟨"Bob", [⟨"1234567890"⟩], none⟩ "²²²²²²²²²²").1 = false := by
  decide

/-- C7 (amended): every record operation preserves the invariant the code
actually maintains — each stored phone value is a 10-character string of
Python digit characters (`str.isdigit`, the code's own validation
predicate) — and none of them changes the record's name. -/
theorem record_ops_preserve_invariant
    (r : Record) (h : phonesValid r = true)
    (number oldNumber newNumber : String) (day : Option Date) :
    phonesValid (r.add_phone number).1 = true ∧
      (r.add_phone number).1.name = r.name ∧
    phonesValid (r.edit_phone oldNumber newNumber).1 = true ∧
      (r.edit_phone oldNumber newNumber).1.name = r.name ∧
    phonesValid (r.remove_phone number).1 = true ∧
      (r.remove_phone number).1.name = r.name ∧
    phonesValid (r.add_birthday day).1 = true ∧
      (r.add_birthday day).1.name = r.name := by
  have hmem := phonesValid_iff.mp h
  refine ⟨?_, ?_, ?_, ?_, ?_, ?_, ?_, ?_⟩
  · rw [phonesValid_iff]
    unfold Record.add_phone
    split_ifs with hv
    · intro p hp
      rcases List.mem_append.mp hp with h1 | h2
      · exact hmem p h1
      · rw [List.mem_singleton.mp h2]
        exact hv
    · exact hmem
  · unfold Record.add_phone
    split_ifs <;> rfl
  · rw [phonesValid_iff]
    cases hidx : getPhoneIndex r.phones oldNumber with
    | none => rw [edit_phone_none r oldNumber newNumber hidx]; exact hmem
    | some i =>
      rw [edit_phone_some r oldNumber newNumber i hidx]
      split_ifs with hv
      · intro p hp
        rcases List.mem_or_eq_of_mem_set hp with h1 | h2
        · exact hmem p h1
        · rw [h2]
          exact hv
      · exact hmem
  · cases hidx : getPhoneIndex r.phones oldNumber with
    | none => rw [edit_phone_none r oldNumber newNumber hidx]
    | some i =>
      rw [edit_phone_some r oldNumber newNumber i hidx]
      split_ifs <;> rfl
  · rw [phonesValid_iff]
    cases hidx : getPhoneIndex r.phones number with
    | none => rw [remove_phone_none r number hidx]; exact hmem
    | some i =>
      rw [remove_phone_some r number i hidx]
      intro p hp
      exact hmem p (List.dropLast_subset _ hp)
  · cases hidx : getPhoneIndex r.phones number with
    | none => rw [remove_phone_none r number hidx]
    | some i => rw [remove_phone_some r number i hidx]
  · rw [phonesValid_iff]
    cases day with
    | none => exact hmem
    | some d => exact hmem
  · cases day <;> rfl

/-- Witness for C7 at a concrete record and concrete arguments. -/
theorem record_ops_preserve_invariant_witness :
    phonesValid ((⟨"Bob", [⟨"0123456789"⟩], none⟩ : Record).add_phone
        "1112223334").1 = true ∧
      ((⟨"Bob", [⟨"0123456789"⟩], none⟩ : Record).add_phone
        "1112223334").1.name = "Bob" ∧
    phonesValid ((⟨"Bob", [⟨"0123456789"⟩], none⟩ : Record).edit_phone
        "0123456789" "9998887776").1 = true ∧
      ((⟨"Bob", [⟨"0123456789"⟩], none⟩ : Record).edit_phone
        "0123456789" "9998887776").1.name = "Bob" ∧
    phonesValid ((⟨"Bob", [⟨"0123456789"⟩], none⟩ : Record).remove_phone
        "1112223334").1 = true ∧
      ((⟨"Bob", [⟨"0123456789"⟩], none⟩ : Record).remove_phone
        "1112223334").1.name = "Bob" ∧
    phonesValid ((⟨"Bob", [⟨"0123456789"⟩], none⟩ : Record).add_birthday
        (some ⟨1990, 6, 15⟩)).1 = true ∧
      ((⟨"Bob", [⟨"0123456789"⟩], none⟩ : Record).add_birthday
        (some ⟨1990, 6, 15⟩)).1.name = "Bob" :=
  record_ops_preserve_invariant ⟨"Bob", [⟨"0123456789"⟩], none⟩ (by decide)
    "1112223334" "0123456789" "9998887776" (some ⟨1990, 6, 15⟩)

end Bot

namespace Bot

/-!
### Store-level claims
-/

/-- C8: saving the book and loading it back from the same file yields the
same book, hence an equivalent mapping (same names bound to the same
records, i.e. the same phones and birthdays). -/
theorem save_then_load_roundtrip (fs : FileSystem) (book : AddressBook)
    (filename : String) :
    load_data (save_data fs book filename) filename = book ∧
    ∀ name, lookupName (load_data (save_data fs book filename) filename).data name
      = lookupName book.data name := by
  constructor
  · simp [load_data, save_data]
  · intro name
    simp [load_data, save_data]

/-- A concrete record and book reused by witness instantiations. -/
def aliceRecord : Record :=
  ⟨"Alice", [⟨"1234567890"⟩], some ⟨1990, 6, 15⟩⟩

def aliceBook : AddressBook :=
  ⟨[("Alice", aliceRecord)]⟩

/-- Witness for C8 at a concrete file system, book and filename. -/
theorem save_then_load_roundtrip_witness :
    load_data (save_data (fun _ => none) aliceBook "book.pkl") "book.pkl"
        = aliceBook ∧
    ∀ name, lookupName (load_data (save_data (fun _ => none) aliceBook
        "book.pkl") "book.pkl").data name = lookupName aliceBook.data name :=
  save_then_load_roundtrip (fun _ => none) aliceBook "book.pkl"

/-- C9: when the book already holds a record under the given name, the `add`
command reuses it: the new phone is appended to that record's phone list
while its name, previously stored phones and birthday are kept, and every
other entry of the book is untouched. -/
theorem add_contact_existing_record
    (book : AddressBook) (name phone : String) (record : Record)
    (hfound : lookupName book.data name = some record)
    (hname : record.name = name)
    (hphone : isPhoneValid phone = true) :
    ∃ book', add_contact [name, phone] book = Except.ok book' ∧
      lookupName book'.data name =
        some { name := record.name, phones := record.phones ++ [⟨phone⟩],
               birthday := record.birthday } ∧
      ∀ other, other ≠ name →
        lookupName book'.data other = lookupName book.data other := by
  have hr' : (record.add_phone phone).1 =
      { name := record.name, phones := record.phones ++ [⟨phone⟩],
        birthday := record.birthday } := by
    simp [Record.add_phone, hphone]
  refine ⟨book.add_record (record.add_phone phone).1, ?_, ?_, ?_⟩
  · simp [add_contact, hphone, hfound]
  · simp only [AddressBook.add_record, hr', hname]
    exact lookupName_setName_self book.data name _
  · intro other hother
    simp only [AddressBook.add_record, hr', hname]
    exact lookupName_setName_ne book.data name other _ hother

/-- Witness for C9: adding a second number for Alice keeps her record. -/
theorem add_contact_existing_record_witness :
    ∃ book', add_contact ["Alice", "0987654321"] aliceBook = Except.ok book' ∧
      lookupName book'.data "Alice" =
        some { name := aliceRecord.name,
               phones := aliceRecord.phones ++ [⟨"0987654321"⟩],
               birthday := aliceRecord.birthday } ∧
      ∀ other, other ≠ "Alice" →
        lookupName book'.data other = lookupName aliceBook.data other :=
  add_contact_existing_record aliceBook "Alice" "0987654321" aliceRecord
    (by decide) (by decide) (by decide)

/-- C10: on a name not present in the book, `find` returns `None` and
`delete` leaves the mapping unchanged (and returns `None`): the `KeyError`
is caught inside the decorated method and never reaches the caller. -/
theorem find_delete_absent (book : AddressBook) (name : String)
    (h : lookupName book.data name = none) :
    book.find name = none ∧ book.delete name = book := by
  constructor
  · simp [AddressBook.find, AddressBook.findRaw, h, errorHandler]
  · simp [AddressBook.delete, AddressBook.deleteRaw, popName_eq_none h]

/-- Witness for C10: Bob is absent from the concrete book. -/
theorem find_delete_absent_witness :
    aliceBook.find "Bob" = none ∧ aliceBook.delete "Bob" = aliceBook :=
  find_delete_absent aliceBook "Bob" (by decide)

end Bot

namespace Bot

/-!
### The upcoming-birthday claims
-/

/-- The loop of `get_upcoming_birthdays` returns normally exactly when every
stored birthday's this-year occurrence is a constructible date, and then the
result collects the greetings of the upcoming records in order. -/
lemma getUpcomingAux_ok_iff (current : Date) (entries : List (String × Record))
    (l : List Greeting) :
    getUpcomingAux current entries = Except.ok l ↔
      ((∀ e ∈ entries, ∀ bd, e.2.birthday = some bd →
          (occurrenceOf current bd).isValid = true) ∧
       l = entries.filterMap (greetingOf current)) := by
  induction entries generalizing l with
  | nil =>
    simp only [getUpcomingAux, List.filterMap_nil, List.not_mem_nil,
      false_implies, implies_true, true_and, Except.ok.injEq]
    exact eq_comm
  | cons entry rest ih =>
    cases hb : entry.2.birthday with
    | none =>
      have hg : greetingOf current entry = none := by
        unfold greetingOf
        rw [hb]
      have hstep : getUpcomingAux current (entry :: rest) =
          getUpcomingAux current rest := by
        simp only [getUpcomingAux, hb]
      rw [hstep, ih, List.filterMap_cons_none hg]
      constructor
      · rintro ⟨hrestvalid, hl⟩
        refine ⟨?_, hl⟩
        intro e he bd' hb'
        rcases List.mem_cons.mp he with he1 | he2
        · rw [he1, hb] at hb'
          cases hb'
        · exact hrestvalid e he2 bd' hb'
      · rintro ⟨hvalid, hl⟩
        exact ⟨fun e he bd' hb' =>
          hvalid e (List.mem_cons_of_mem _ he) bd' hb', hl⟩
    | some bd =>
      by_cases hv : (occurrenceOf current bd).isValid = true
      · by_cases hu : isUpcoming current (occurrenceOf current bd)
        · have hg : greetingOf current entry = some
              ⟨entry.1, (congratulationDate (occurrenceOf current bd)).format⟩ := by
            unfold greetingOf
            simp only [hb]
            rw [if_pos hu]
          have hstep : getUpcomingAux current (entry :: rest) =
              match getUpcomingAux current rest with
              | Except.ok gs => Except.ok
                  (⟨entry.1, (congratulationDate (occurrenceOf current bd)).format⟩ :: gs)
              | Except.error e => Except.error e := by
            simp only [getUpcomingAux, hb]
            rw [if_pos hv, if_pos hu]
          rw [hstep, List.filterMap_cons_some hg]
          cases hrest : getUpcomingAux current rest with
          | error e =>
            constructor
            · intro hcontra
              cases hcontra
            · rintro ⟨hvalid, hl⟩
              have hrestvalid : ∀ e ∈ rest, ∀ bd, e.2.birthday = some bd →
                  (occurrenceOf current bd).isValid = true :=
                fun e he bd' hb' => hvalid e (List.mem_cons_of_mem _ he) bd' hb'
              have hok := (ih (rest.filterMap (greetingOf current))).mpr
                ⟨hrestvalid, rfl⟩
              rw [hrest] at hok
              cases hok
          | ok gs =>
            obtain ⟨hrestvalid, hgs⟩ := (ih gs).mp hrest
            constructor
            · intro hok
              have hl : l =
                  ⟨entry.1, (congratulationDate (occurrenceOf current bd)).format⟩ :: gs :=
                (Except.ok.inj hok).symm
              refine ⟨?_, ?_⟩
              · intro e he bd' hb'
                rcases List.mem_cons.mp he with he1 | he2
                · rw [he1, hb] at hb'
                  cases hb'
                  exact hv
                · exact hrestvalid e he2 bd' hb'
              · rw [hl, hgs]
            · rintro ⟨hvalid, hl⟩
              rw [hl, ← hgs]
        · have hg : greetingOf current entry = none := by
            unfold greetingOf
            simp only [hb]
            rw [if_neg hu]
          have hstep : getUpcomingAux current (entry :: rest) =
              getUpcomingAux current rest := by
            simp only [getUpcomingAux, hb]
            rw [if_pos hv, if_neg hu]
          rw [hstep, ih, List.filterMap_cons_none hg]
          constructor
          · rintro ⟨hrestvalid, hl⟩
            refine ⟨?_, hl⟩
            intro e he bd' hb'
            rcases List.mem_cons.mp he with he1 | he2
            · rw [he1, hb] at hb'
              cases hb'
              exact hv
            · exact hrestvalid e he2 bd' hb'
          · rintro ⟨hvalid, hl⟩
            exact ⟨fun e he bd' hb' =>
              hvalid e (List.mem_cons_of_mem _ he) bd' hb', hl⟩
      · have hstep : getUpcomingAux current (entry :: rest) = Except.error () := by
          simp only [getUpcomingAux, hb]
          rw [if_neg hv]
        rw [hstep]
        constructor
        · intro hcontra
          cases hcontra
        · rintro ⟨hvalid, _⟩
          exact absurd (hvalid entry (List.mem_cons_self entry rest) bd hb) hv

end Bot

namespace Bot

lemma congratulationDate_eq (d : Date) :
    congratulationDate d =
      if 5 ≤ d.weekday then d.addDays (7 - d.weekday) else d := by
  unfold congratulationDate
  by_cases h : d.weekday < 5
  · rw [if_pos h, if_neg (by omega)]
    rfl
  · rw [if_neg h, if_pos (by omega)]

/-- C1: for a store with distinct contact names whose birthday scan returns
normally, a contact with a stored birthday appears in the result of
`get_upcoming_birthdays` iff the day difference between this year's
occurrence of the birthday (stored month/day with today's year) and today
lies in [0, 7]; a contact without a birthday never appears. -/
theorem get_upcoming_birthdays_mem_iff
    (book : AddressBook) (current : Date) (l : List Greeting)
    (hkeys : (book.data.map Prod.fst).Nodup)
    (hok : book.get_upcoming_birthdays current = Except.ok l)
    (name : String) (record : Record)
    (hmem : (name, record) ∈ book.data) :
    (∃ g ∈ l, g.name = name) ↔
      ∃ bd, record.birthday = some bd ∧
        isUpcoming current (occurrenceOf current bd) := by
  unfold AddressBook.get_upcoming_birthdays at hok
  rw [getUpcomingAux_ok_iff] at hok
  obtain ⟨hvalid, hl⟩ := hok
  subst hl
  constructor
  · rintro ⟨g, hg, hgname⟩
    obtain ⟨e, he, hge⟩ := List.mem_filterMap.mp hg
    obtain ⟨nm, rec⟩ := e
    cases hbd : rec.birthday with
    | none =>
      simp only [greetingOf, hbd] at hge
      cases hge
    | some bd =>
      simp only [greetingOf, hbd] at hge
      by_cases hu : isUpcoming current (occurrenceOf current bd)
      · rw [if_pos hu] at hge
        have hgeq : g =
            ⟨nm, (congratulationDate (occurrenceOf current bd)).format⟩ :=
          (Option.some.inj hge).symm
        have hnm : nm = name := by
          rw [hgeq] at hgname
          exact hgname
        subst hnm
        have hrec : rec = record := nodup_keys_mem_eq hkeys he hmem
        exact ⟨bd, hrec ▸ hbd, hu⟩
      · rw [if_neg hu] at hge
        cases hge
  · rintro ⟨bd, hbd, hu⟩
    refine ⟨⟨name, (congratulationDate (occurrenceOf current bd)).format⟩, ?_, rfl⟩
    apply List.mem_filterMap.mpr
    refine ⟨(name, record), hmem, ?_⟩
    simp only [greetingOf, hbd]
    rw [if_pos hu]

/-- Witness for C1 at a concrete book (today = 10.06.2024; Alice's birthday
15.06 is five days ahead, so she appears in the result). -/
theorem get_upcoming_birthdays_mem_iff_witness :
    (∃ g ∈ [(⟨"Alice", "17.06.2024"⟩ : Greeting)], g.name = "Alice") ↔
      ∃ bd, aliceRecord.birthday = some bd ∧
        isUpcoming ⟨2024, 6, 10⟩ (occurrenceOf ⟨2024, 6, 10⟩ bd) :=
  get_upcoming_birthdays_mem_iff aliceBook ⟨2024, 6, 10⟩
    [⟨"Alice", "17.06.2024"⟩] (by decide) (by rfl) "Alice" aliceRecord
    (by decide)

/-- C2: every greeting emitted by `get_upcoming_birthdays` belongs to a
stored record whose this-year birthday occurrence is upcoming, and its
congratulation date is the occurrence shifted to the following Monday when
the occurrence falls on Saturday or Sunday (weekday index ≥ 5, shifted by
7 − weekday days) and the occurrence itself otherwise. -/
theorem get_upcoming_birthdays_congratulation_date
    (book : AddressBook) (current : Date) (l : List Greeting)
    (hok : book.get_upcoming_birthdays current = Except.ok l)
    (g : Greeting) (hg : g ∈ l) :
    ∃ name record bd, (name, record) ∈ book.data ∧ g.name = name ∧
      record.birthday = some bd ∧
      isUpcoming current (occurrenceOf current bd) ∧
      g.congratulation_date =
        (if 5 ≤ (occurrenceOf current bd).weekday then
          (occurrenceOf current bd).addDays (7 - (occurrenceOf current bd).weekday)
        else occurrenceOf current bd).format := by
  unfold AddressBook.get_upcoming_birthdays at hok
  rw [getUpcomingAux_ok_iff] at hok
  obtain ⟨hvalid, hl⟩ := hok
  subst hl
  obtain ⟨e, he, hge⟩ := List.mem_filterMap.mp hg
  obtain ⟨nm, rec⟩ := e
  cases hbd : rec.birthday with
  | none =>
    simp only [greetingOf, hbd] at hge
    cases hge
  | some bd =>
    simp only [greetingOf, hbd] at hge
    by_cases hu : isUpcoming current (occurrenceOf current bd)
    · rw [if_pos hu] at hge
      have hgeq : g =
          ⟨nm, (congratulationDate (occurrenceOf current bd)).format⟩ :=
        (Option.some.inj hge).symm
      refine ⟨nm, rec, bd, he, ?_, hbd, hu, ?_⟩
      · rw [hgeq]
      · rw [hgeq, ← congratulationDate_eq]
    · rw [if_neg hu] at hge
      cases hge

/-- Witness for C2, showing the spec's worked example: today = 10.06.2024
(a Monday), the birthday occurrence 15.06.2024 falls on a Saturday, and the
emitted congratulation date is 17.06.2024 (the following Monday). -/
theorem get_upcoming_birthdays_congratulation_date_witness :
    ∃ name record bd, (name, record) ∈ aliceBook.data ∧
      (⟨"Alice", "17.06.2024"⟩ : Greeting).name = name ∧
      record.birthday = some bd ∧
      isUpcoming ⟨2024, 6, 10⟩ (occurrenceOf ⟨2024, 6, 10⟩ bd) ∧
      (⟨"Alice", "17.06.2024"⟩ : Greeting).congratulation_date =
        (if 5 ≤ (occurrenceOf ⟨2024, 6, 10⟩ bd).weekday then
          (occurrenceOf ⟨2024, 6, 10⟩ bd).addDays
            (7 - (occurrenceOf ⟨2024, 6, 10⟩ bd).weekday)
        else occurrenceOf ⟨2024, 6, 10⟩ bd).format :=
  get_upcoming_birthdays_congratulation_date aliceBook ⟨2024, 6, 10⟩
    [⟨"Alice", "17.06.2024"⟩] (by rfl) ⟨"Alice", "17.06.2024"⟩ (by decide)

end Bot
